import Mathlib

/-!
# Verification of the admittance control loop (`examples/admittance.py`)

Shallow embedding of the `AdmittanceController` class from
`examples/admittance.py`, together with the quadratic program it assembles in
`__init__` and the per-cycle operation `__call__`.

The embedding is generic over a linear ordered field `α` standing for the
real scalars; the concrete constants fixed by `__init__` (lines 67-68) are
given over `ℝ`, where `np.deg2rad` is the exact map `d ↦ d * π / 180`.

External collaborators (the robot model loader, the CasADi/qpOASES solver)
are parameters of the embedding: the solver is an abstract function from the
cycle's parameters and an optional warm-start seed to either a solution or a
failure, matching the adapter contract in the specification.
-/

namespace Admittance

variable {α : Type*} [LinearOrderedField α] {n : ℕ}

/-- `np.clip(x, lo, hi)` on one component: `min (max x lo) hi`. -/
def npclip (x lo hi : α) : α := min (max x lo) hi

/-- Sum of squares of a vector, `optas.sumsqr`. -/
def sumsqr {m : ℕ} (v : Fin m → α) : α := ∑ i, v i ^ 2

/-- Matrix-vector product `J @ dq` of the 6×n Jacobian with a joint velocity. -/
def jmul (J : Fin 6 → Fin n → α) (dq : Fin n → α) : Fin 6 → α :=
  fun i => ∑ j, J i j * dq j

/-- View a list of the right length as a `Fin n`-indexed vector. -/
def toVec (xs : List α) (h : xs.length = n) : Fin n → α :=
  fun i => xs.get (Fin.cast h.symm i)

/-- The robot model, as consumed by the controller: actuated joint limits
(`robot.lower_actuated_joint_limits`, `robot.upper_actuated_joint_limits`)
and the global link geometric Jacobian of the end-effector frame as a
function of the joint configuration (`robot.get_global_link_geometric_jacobian`). -/
structure Robot (α : Type*) (n : ℕ) where
  lower : Fin n → α
  upper : Fin n → α
  jacobian : (Fin n → α) → Fin 6 → Fin n → α

/-- The controller instance. `solution` is the cached previous solver
solution (`self.solution`, line 66), `gain` and `vlim` the admittance gain
and safety velocity clamp (`self.gain`, `self.vlim`, lines 67-68). -/
structure AdmittanceController (α : Type*) (n : ℕ) where
  robot : Robot α n
  solution : Option (Fin n → α)
  gain : Fin 6 → α
  vlim : Fin 6 → α

/-- Construction, `__init__` lines 26-68: records the loaded robot, sets
`self.solution = None` and the two constant vectors.  `gain` and `vlim` are
supplied here so the same record also describes hypothetical controllers;
the concrete `init` below fixes them exactly as the source does. -/
def mkController (R : Robot α n) (gain vlim : Fin 6 → α) :
    AdmittanceController α n :=
  { robot := R, solution := none, gain := gain, vlim := vlim }

/-- Errors surfaced by the per-cycle operation. -/
inductive CtrlError where
  | dimensionMismatch : CtrlError
  | solverFailure : CtrlError
deriving DecidableEq, Repr

/-- The external QP solver (`optas.CasADiSolver` with the problem built in
`__init__`): given the cycle's parameters `qc`, `vg`, `dt` and an optional
warm-start seed (lines 101-104), it returns a joint-velocity solution or
fails. -/
def SolverFun (α : Type*) (n : ℕ) :=
  (Fin n → α) → (Fin 6 → α) → α → Option (Fin n → α) → Except Unit (Fin n → α)

/-- Lines 94-98 of `__call__`: `vg = self.gain * wr` followed by
`vg = np.clip(vg, -self.vlim, self.vlim)`. -/
def desiredVelocity (c : AdmittanceController α n) (wr : Fin 6 → α) :
    Fin 6 → α :=
  fun i => npclip (c.gain i * wr i) (-c.vlim i) (c.vlim i)

/-- The per-cycle operation `__call__` (lines 70-111).  Dimension validation
of the raw inputs against `n` and `6` is Modelled from the spec: it happens
inside the external numpy/optas layer (lines 95 and 104), before the solve;
on any failure the cached `self.solution` is untouched, because in the
source the only assignment to it is `self.solution = self.solver.solve()`
on line 107, which does not execute when an error is raised earlier, and is
not reached past a raising `solve()`.  On success the solution is cached and
`qg = qc + dt * dqg` (line 109) is returned. -/
def step (solve : SolverFun α n) (c : AdmittanceController α n)
    (qc wr : List α) (dt : α) :
    Except CtrlError (Fin n → α) × AdmittanceController α n :=
  if hq : qc.length = n then
    if hw : wr.length = 6 then
      let qcv := toVec qc hq
      let vg := desiredVelocity c (toVec wr hw)
      match solve qcv vg dt c.solution with
      | Except.error _ => (Except.error CtrlError.solverFailure, c)
      | Except.ok dqg =>
          (Except.ok (fun i => qcv i + dt * dqg i),
           { c with solution := some dqg })
    else (Except.error CtrlError.dimensionMismatch, c)
  else (Except.error CtrlError.dimensionMismatch, c)

/-! ## The concrete constants of `__init__` (lines 67-68), over `ℝ` -/

/-- `np.deg2rad`: degrees to radians, `d * π / 180`. -/
noncomputable def deg2rad (d : ℝ) : ℝ := d * Real.pi / 180

/-- Line 67: `self.gain = np.array([0.05, 0.05, 0.05, 0.3, 0.3, 0.3])`. -/
noncomputable def gainInit : Fin 6 → ℝ := ![0.05, 0.05, 0.05, 0.3, 0.3, 0.3]

/-- Line 68: `self.vlim = np.concatenate(([0.2, 0.2, 0.2], np.deg2rad([40] * 3)))`. -/
noncomputable def vlimInit : Fin 6 → ℝ :=
  ![0.2, 0.2, 0.2, deg2rad 40, deg2rad 40, deg2rad 40]

/-- `__init__(self, lbr_med_num)`: loads the robot identified by
`lbr_med_num` through the external `load_robot` collaborator (line 28) and
initializes the instance with `solution = None` and the two fixed constant
vectors of lines 67-68.  `loadRobot` stands for the external model loader. -/
noncomputable def init (loadRobot : ℕ → Robot ℝ n) (lbr_med_num : ℕ) :
    AdmittanceController ℝ n :=
  mkController (loadRobot lbr_med_num) gainInit vlimInit

/-- The parameter list of `AdmittanceController.__init__` as written on
line 14 of the source: `def __init__(self, lbr_med_num):`. -/
def initParamNames : List String := ["self", "lbr_med_num"]

/-- The methods defined by the `AdmittanceController` class
(lines 14 and 70 of the source). -/
def classMethodNames : List String := ["__init__", "__call__"]

/-! ## The quadratic program assembled in `__init__` (lines 33-63) -/

/-- Lines 46-48: cost term `"ee_vel_goal"`, `50.0 * optas.sumsqr(v - vg)`
with `v = J @ dq` and `J` the geometric Jacobian at `qc`. -/
def eeVelGoalCost (R : Robot α n) (qc : Fin n → α) (vg : Fin 6 → α)
    (dq : Fin n → α) : α :=
  50 * sumsqr (fun i => jmul (R.jacobian qc) dq i - vg i)

/-- Line 60: cost term `"min_joint_vel"`, `optas.sumsqr(dq)`. -/
def minJointVelCost (dq : Fin n → α) : α := sumsqr dq

/-- The total objective of the built optimization problem: the sum of the two
cost terms added to the builder. -/
def totalCost (R : Robot α n) (qc : Fin n → α) (vg : Fin 6 → α)
    (dq : Fin n → α) : α :=
  eeVelGoalCost R qc vg dq + minJointVelCost dq

/-- Lines 51-57: bound inequality constraint `"joint_limits"`,
`lower ≤ qc + dt * dq ≤ upper`, one pair of bounds per degree of freedom. -/
def jointLimitsFeasible (R : Robot α n) (qc : Fin n → α) (dt : α)
    (dq : Fin n → α) : Prop :=
  ∀ i, R.lower i ≤ qc i + dt * dq i ∧ qc i + dt * dq i ≤ R.upper i

instance (R : Robot α n) (qc : Fin n → α) (dt : α) (dq : Fin n → α) :
    Decidable (jointLimitsFeasible R qc dt dq) := by
  unfold jointLimitsFeasible; infer_instance

/-- The joint-limit bound relaxed by a solver tolerance `ε ≥ 0`. -/
def jointLimitsFeasibleTol (R : Robot α n) (qc : Fin n → α) (dt : α)
    (dq : Fin n → α) (ε : α) : Prop :=
  ∀ i, R.lower i - ε ≤ qc i + dt * dq i ∧ qc i + dt * dq i ≤ R.upper i + ε

/-! ## The specification's description of the same program

These definitions follow the wording of the specification (§3 VelocityQP,
§4.2 VelocityQPBuilder) rather than the source; they exist to be compared
with the definitions above. -/

/-- Spec §4.2: `W_track · ||jacobian·velocity − desiredVelocity||² +
W_reg · ||velocity||²` with symbolic weights. -/
def specCost (Wtrack Wreg : α) (J : Fin 6 → Fin n → α) (vg : Fin 6 → α)
    (dq : Fin n → α) : α :=
  Wtrack * sumsqr (fun i => jmul J dq i - vg i) + Wreg * sumsqr dq

/-- Spec §4.2: `limits.lower ≤ configuration + dt·velocity ≤ limits.upper`,
one pair of bounds per degree of freedom. -/
def specBound (lower upper : Fin n → α) (qc : Fin n → α) (dt : α)
    (dq : Fin n → α) : Prop :=
  ∀ i, lower i ≤ qc i + dt * dq i ∧ qc i + dt * dq i ≤ upper i

/-! ## Concrete instances over `ℚ`

A tiny 1-DOF robot and controller used to evaluate the embedding on
concrete inputs, plus the 1-DOF toy scenario of the specification's §8. -/

/-- A 1-DOF robot with limits `[-1, 1]` and zero Jacobian, for concrete
evaluation. -/
def wRobot : Robot ℚ 1 :=
  { lower := fun _ => -1, upper := fun _ => 1, jacobian := fun _ _ _ => 0 }

/-- A concrete controller over `wRobot` with unit gain and unit clamp. -/
def wCtrl : AdmittanceController ℚ 1 :=
  mkController wRobot (fun _ => 1) (fun _ => 1)

/-- A concrete configuration input of the right length. -/
def wQc : List ℚ := [0]

/-- A concrete wrench input of the right length. -/
def wWr : List ℚ := [0, 0, 0, 0, 0, 0]

/-- A solver that always succeeds with the constant solution `1/2`. -/
def wSolveOk : SolverFun ℚ 1 := fun _ _ _ _ => Except.ok (fun _ => 1 / 2)

/-- A solver that always fails. -/
def wSolveFail : SolverFun ℚ 1 := fun _ _ _ _ => Except.error ()

/-- A solver that succeeds only from a cold start (seed `none`) and fails on
any warm start; it agrees with `wSolveOk` exactly at seed `none`. -/
def wSolveColdOnly : SolverFun ℚ 1 := fun _ _ _ seed =>
  match seed with
  | none => Except.ok (fun _ => 1 / 2)
  | some _ => Except.error ()

/-- The 1-DOF toy arm of spec §8: constant Jacobian `[[1,0,0,0,0,0]]`
(first row `1`, the other five rows `0`), limits `[-1, 1]`. -/
def toyRobot : Robot ℚ 1 :=
  { lower := fun _ => -1, upper := fun _ => 1,
    jacobian := fun _ i _ => if i = 0 then 1 else 0 }

/-- The toy controller of spec §8: gain `[1,0,0,0,0,0]`, velocity limit
`0.5` in every component. -/
def toyController : AdmittanceController ℚ 1 :=
  mkController toyRobot (fun i => if i = 0 then 1 else 0) (fun _ => 1 / 2)

/-- The expected clamped desired velocity of the toy scenario:
`0.5` in the linear x-component, `0` elsewhere. -/
def toyVg : Fin 6 → ℚ := fun i => if i = 0 then 1 / 2 else 0

/-- The toy wrench `[2, 0, 0, 0, 0, 0]` of spec §8. -/
def toyWrench : List ℚ := [2, 0, 0, 0, 0, 0]

/-- A solver returning the analytic optimum `25/51` of the toy scenario. -/
def toySolve : SolverFun ℚ 1 := fun _ _ _ _ => Except.ok (fun _ => 25 / 51)

/-- The commanded configuration of the toy scenario:
`qc + dt * dqg = 0 + (1/10) * (25/51)`. -/
def qg9 : Fin 1 → ℚ := fun i => toVec [(0 : ℚ)] rfl i + 1 / 10 * (25 / 51)

/-- The commanded configuration returned by `step wSolveOk wCtrl wQc wWr 1`. -/
def wQg : Fin 1 → ℚ := fun i => toVec wQc rfl i + 1 * (1 / 2)

/-! ## Helper lemmas about `step` -/

/-- When both inputs have the declared dimensions and the solver succeeds,
`step` returns `qc + dt * dqg` and caches the solution. -/
theorem step_eq_of_solve_ok (solve : SolverFun α n)
    (c : AdmittanceController α n) (qc wr : List α) (dt : α)
    (hq : qc.length = n) (hw : wr.length = 6) (dqg : Fin n → α)
    (hs : solve (toVec qc hq) (desiredVelocity c (toVec wr hw)) dt c.solution
            = Except.ok dqg) :
    step solve c qc wr dt
      = (Except.ok (fun i => toVec qc hq i + dt * dqg i),
         { c with solution := some dqg }) := by
  unfold step
  rw [dif_pos hq, dif_pos hw]
  simp only [hs]

/-- When both inputs have the declared dimensions and the solver fails,
`step` surfaces a `solverFailure` and returns the controller unchanged. -/
theorem step_eq_of_solve_error (solve : SolverFun α n)
    (c : AdmittanceController α n) (qc wr : List α) (dt : α)
    (hq : qc.length = n) (hw : wr.length = 6) (e : Unit)
    (hs : solve (toVec qc hq) (desiredVelocity c (toVec wr hw)) dt c.solution
            = Except.error e) :
    step solve c qc wr dt = (Except.error CtrlError.solverFailure, c) := by
  unfold step
  rw [dif_pos hq, dif_pos hw]
  simp only [hs]

/-- A dimension mismatch in either input makes `step` fail with
`dimensionMismatch` and return the controller unchanged. -/
theorem step_eq_of_dim_mismatch (solve : SolverFun α n)
    (c : AdmittanceController α n) (qc wr : List α) (dt : α)
    (h : qc.length ≠ n ∨ wr.length ≠ 6) :
    step solve c qc wr dt = (Except.error CtrlError.dimensionMismatch, c) := by
  unfold step
  rcases h with h | h
  · rw [dif_neg h]
  · by_cases hq : qc.length = n
    · rw [dif_pos hq, dif_neg h]
    · rw [dif_neg hq]

/-- Inversion: a successful `step` came from a successful solve, the output
is `qc + dt * dqg`, and the new cache holds that solution. -/
theorem step_ok_inv (solve : SolverFun α n)
    (c : AdmittanceController α n) (qc wr : List α) (dt : α)
    (qg : Fin n → α) (c' : AdmittanceController α n)
    (hq : qc.length = n) (hw : wr.length = 6)
    (h : step solve c qc wr dt = (Except.ok qg, c')) :
    ∃ dqg,
      solve (toVec qc hq) (desiredVelocity c (toVec wr hw)) dt c.solution
          = Except.ok dqg
        ∧ qg = (fun i => toVec qc hq i + dt * dqg i)
        ∧ c' = { c with solution := some dqg } := by
  cases hs : solve (toVec qc hq) (desiredVelocity c (toVec wr hw)) dt
      c.solution with
  | error e =>
      rw [step_eq_of_solve_error solve c qc wr dt hq hw e hs] at h
      exact absurd (congrArg Prod.fst h) (by simp)
  | ok dqg =>
      rw [step_eq_of_solve_ok solve c qc wr dt hq hw dqg hs,
        Prod.mk.injEq] at h
      refine ⟨dqg, rfl, ?_, h.2.symm⟩
      exact (Except.ok.inj h.1).symm

/-- Any erroring `step` leaves the controller exactly as it was. -/
theorem step_error_state (solve : SolverFun α n)
    (c : AdmittanceController α n) (qc wr : List α) (dt : α)
    (e : CtrlError) (c' : AdmittanceController α n)
    (h : step solve c qc wr dt = (Except.error e, c')) : c' = c := by
  by_cases hq : qc.length = n
  · by_cases hw : wr.length = 6
    · cases hs : solve (toVec qc hq) (desiredVelocity c (toVec wr hw)) dt
          c.solution with
      | error e0 =>
          rw [step_eq_of_solve_error solve c qc wr dt hq hw e0 hs] at h
          exact (congrArg Prod.snd h).symm
      | ok dqg =>
          rw [step_eq_of_solve_ok solve c qc wr dt hq hw dqg hs] at h
          exact absurd (congrArg Prod.fst h) (by simp)
    · rw [step_eq_of_dim_mismatch solve c qc wr dt (Or.inr hw)] at h
      exact (congrArg Prod.snd h).symm
  · rw [step_eq_of_dim_mismatch solve c qc wr dt (Or.inl hq)] at h
    exact (congrArg Prod.snd h).symm

/-- `step` consults the solver only at the cached seed `c.solution`: two
solvers that agree there produce identical outcomes. -/
theorem step_seed_agree (solve solve2 : SolverFun α n)
    (c : AdmittanceController α n) (qc wr : List α) (dt : α)
    (hagree : ∀ q v d, solve q v d c.solution = solve2 q v d c.solution) :
    step solve c qc wr dt = step solve2 c qc wr dt := by
  unfold step
  by_cases hq : qc.length = n
  · by_cases hw : wr.length = 6
    · rw [dif_pos hq, dif_pos hw, dif_pos hq, dif_pos hw]
      simp only [hagree]
    · rw [dif_pos hq, dif_neg hw, dif_pos hq, dif_neg hw]
  · rw [dif_neg hq, dif_neg hq]

/-- `step` never changes the `gain` and `vlim` fields: the only field it
writes is the cached `solution`. -/
theorem step_snd_gain_vlim (solve : SolverFun α n)
    (c : AdmittanceController α n) (qc wr : List α) (dt : α) :
    ((step solve c qc wr dt).2).gain = c.gain
      ∧ ((step solve c qc wr dt).2).vlim = c.vlim
      ∧ ((step solve c qc wr dt).2).robot = c.robot := by
  by_cases hq : qc.length = n
  · by_cases hw : wr.length = 6
    · cases hsv : solve (toVec qc hq) (desiredVelocity c (toVec wr hw)) dt
          c.solution with
      | error e =>
          rw [step_eq_of_solve_error solve c qc wr dt hq hw e hsv]
          exact ⟨rfl, rfl, rfl⟩
      | ok dqg =>
          rw [step_eq_of_solve_ok solve c qc wr dt hq hw dqg hsv]
          exact ⟨rfl, rfl, rfl⟩
    · rw [step_eq_of_dim_mismatch solve c qc wr dt (Or.inr hw)]
      exact ⟨rfl, rfl, rfl⟩
  · rw [step_eq_of_dim_mismatch solve c qc wr dt (Or.inl hq)]
    exact ⟨rfl, rfl, rfl⟩

/-- Every component of the fixed safety clamp of line 68 is nonnegative. -/
theorem vlimInit_nonneg (i : Fin 6) : 0 ≤ vlimInit i := by
  have hπ : (0 : ℝ) ≤ Real.pi := Real.pi_nonneg
  have h40 : (0 : ℝ) ≤ deg2rad 40 := by unfold deg2rad; nlinarith
  fin_cases i
  · show (0 : ℝ) ≤ 0.2; norm_num
  · show (0 : ℝ) ≤ 0.2; norm_num
  · show (0 : ℝ) ≤ 0.2; norm_num
  · exact h40
  · exact h40
  · exact h40

/-- The clamped desired velocity of the toy scenario is `[1/2,0,0,0,0,0]`. -/
theorem toy_vg_eval :
    desiredVelocity toyController (toVec toyWrench rfl) = toyVg := by
  funext i
  by_cases h0 : i = 0
  · subst h0
    show npclip ((1 : ℚ) * 2) (-(1 / 2)) (1 / 2) = (1 / 2 : ℚ)
    norm_num [npclip, min_def, max_def]
  · show npclip ((if i = 0 then (1 : ℚ) else 0) * toVec toyWrench rfl i)
        (-(1 / 2)) (1 / 2) = if i = 0 then (1 / 2 : ℚ) else 0
    rw [if_neg h0, if_neg h0, zero_mul]
    norm_num [npclip, min_def, max_def]

/-- The toy objective reduces to the scalar function `50(v₀ - 1/2)² + v₀²`. -/
theorem toy_cost_eval (v : Fin 1 → ℚ) :
    totalCost toyRobot (fun _ => 0) toyVg v
      = 50 * (v 0 - 1 / 2) ^ 2 + v 0 ^ 2 := by
  simp [totalCost, eeVelGoalCost, minJointVelCost, sumsqr, jmul, toyRobot,
    toyVg, Fin.sum_univ_six, Fin.sum_univ_one]

/-- The clamp keeps every component within the (nonnegative) limit. -/
theorem abs_npclip_le (x L : α) (hL : 0 ≤ L) : |npclip x (-L) L| ≤ L := by
  rw [abs_le]
  exact ⟨le_min (le_max_right x (-L)) (neg_le_self hL), min_le_right _ _⟩

/-- `25/51` globally minimizes the toy objective. -/
theorem toy_opt_le (v : Fin 1 → ℚ) :
    totalCost toyRobot (fun _ => 0) toyVg (fun _ => 25 / 51)
      ≤ totalCost toyRobot (fun _ => 0) toyVg v := by
  rw [toy_cost_eval, toy_cost_eval]
  nlinarith [sq_nonneg (v 0 - 25 / 51)]

/-- `25/51` is the unique minimizer of the toy objective. -/
theorem toy_opt_unique (v : Fin 1 → ℚ)
    (h : totalCost toyRobot (fun _ => 0) toyVg v
          = totalCost toyRobot (fun _ => 0) toyVg (fun _ => 25 / 51)) :
    v = fun _ => 25 / 51 := by
  rw [toy_cost_eval, toy_cost_eval] at h
  have hsq : (v 0 - 25 / 51) ^ 2 = 0 := by nlinarith
  have h0 : v 0 = 25 / 51 := by
    have := sq_eq_zero_iff.mp hsq
    linarith
  funext i
  have hi : i = 0 := Subsingleton.elim i 0
  rw [hi, h0]

/-! ## Claims -/

/-- C1: every per-cycle call that the solver completes successfully returns
the commanded configuration `qc + dt * dqg`, where `dqg` is the velocity
solution the solver produced that cycle (line 109 of the source);
consequently, whenever that solution satisfies the joint-limit bound
constraint of the QP to within a solver tolerance `ε ≥ 0`, every component
of the returned configuration lies in `[lower - ε, upper + ε]`. -/
theorem C1_commanded_configuration (solve : SolverFun α n)
    (c : AdmittanceController α n) (qc wr : List α) (dt : α)
    (qg : Fin n → α) (c' : AdmittanceController α n)
    (hq : qc.length = n) (hw : wr.length = 6)
    (h : step solve c qc wr dt = (Except.ok qg, c')) :
    ∃ dqg,
      solve (toVec qc hq) (desiredVelocity c (toVec wr hw)) dt c.solution
          = Except.ok dqg
        ∧ qg = (fun i => toVec qc hq i + dt * dqg i)
        ∧ ∀ ε, 0 ≤ ε →
            jointLimitsFeasibleTol c.robot (toVec qc hq) dt dqg ε →
            ∀ i, c.robot.lower i - ε ≤ qg i ∧ qg i ≤ c.robot.upper i + ε := by
  obtain ⟨dqg, hs, hqg, hc⟩ := step_ok_inv solve c qc wr dt qg c' hq hw h
  subst hqg
  exact ⟨dqg, hs, rfl, fun ε hε htol i => htol i⟩

/-- Witness for C1 at a concrete controller, input and solver. -/
theorem C1_commanded_configuration_witness :
    ∃ dqg,
      wSolveOk (toVec wQc rfl) (desiredVelocity wCtrl (toVec wWr rfl)) 1
          wCtrl.solution = Except.ok dqg
        ∧ wQg = (fun i => toVec wQc rfl i + 1 * dqg i)
        ∧ ∀ ε, (0 : ℚ) ≤ ε →
            jointLimitsFeasibleTol wCtrl.robot (toVec wQc rfl) 1 dqg ε →
            ∀ i, wCtrl.robot.lower i - ε ≤ wQg i
              ∧ wQg i ≤ wCtrl.robot.upper i + ε :=
  C1_commanded_configuration wSolveOk wCtrl wQc wWr 1 wQg
    { wCtrl with solution := some (fun _ => 1 / 2) } rfl rfl rfl

/-- C2: for every wrench, the desired task velocity computed by lines 94-98
(elementwise gain times wrench, then the elementwise clamp) is bounded in
absolute value by the velocity limit in every component; by the definition
of `step`, this clamped vector is exactly the `vg` parameter handed to the
solver of the QP. -/
theorem C2_desired_velocity_clamped (loadRobot : ℕ → Robot ℝ n)
    (lbr_med_num : ℕ) (wr : Fin 6 → ℝ) (i : Fin 6) :
    |desiredVelocity (init loadRobot lbr_med_num) wr i|
      ≤ (init loadRobot lbr_med_num).vlim i :=
  abs_npclip_le _ _ (vlimInit_nonneg i)

/-- C3: the assembled QP has decision variable `dq`, objective
`50 * ||J(qc) dq - vg||² + 1 * ||dq||²` — that is, `W_track = 50` and
`W_reg = 1` — and the per-joint bound constraint
`lower ≤ qc + dt * dq ≤ upper`, matching the spec-side descriptions
`specCost` and `specBound`. -/
theorem C3_qp_structure (R : Robot α n) (qcv : Fin n → α) (vg : Fin 6 → α)
    (dt : α) (dq : Fin n → α) :
    totalCost R qcv vg dq = specCost 50 1 (R.jacobian qcv) vg dq
      ∧ (jointLimitsFeasible R qcv dt dq
          ↔ specBound R.lower R.upper qcv dt dq) := by
  constructor
  · unfold totalCost specCost eeVelGoalCost minJointVelCost
    ring
  · exact Iff.rfl

/-- C4: the warm-start seed is a two-state machine: at construction the
cache is `none`; every successful call installs/overwrites the cache with
the solution the solver returned; any failing call leaves the controller
(hence the cache) exactly as it was, so the cache never reverts to `none`
except through re-initialization; and the seed handed to the solver is
precisely the cached `c.solution` (two solvers agreeing there behave
identically). -/
theorem C4_warm_start_state_machine :
    (∀ (R : Robot α n) (g v : Fin 6 → α), (mkController R g v).solution = none)
    ∧ (∀ (solve : SolverFun α n) (c : AdmittanceController α n)
        (qc wr : List α) (dt : α) (qg : Fin n → α)
        (c' : AdmittanceController α n),
        step solve c qc wr dt = (Except.ok qg, c') →
        ∃ (hq : qc.length = n) (hw : wr.length = 6) (dqg : Fin n → α),
          solve (toVec qc hq) (desiredVelocity c (toVec wr hw)) dt c.solution
              = Except.ok dqg
            ∧ c'.solution = some dqg)
    ∧ (∀ (solve : SolverFun α n) (c : AdmittanceController α n)
        (qc wr : List α) (dt : α) (e : CtrlError)
        (c' : AdmittanceController α n),
        step solve c qc wr dt = (Except.error e, c') → c' = c)
    ∧ (∀ (solve solve2 : SolverFun α n) (c : AdmittanceController α n)
        (qc wr : List α) (dt : α),
        (∀ q v d, solve q v d c.solution = solve2 q v d c.solution) →
        step solve c qc wr dt = step solve2 c qc wr dt) := by
  refine ⟨fun R g v => rfl, ?_, ?_, ?_⟩
  · intro solve c qc wr dt qg c' h
    by_cases hq : qc.length = n
    · by_cases hw : wr.length = 6
      · obtain ⟨dqg, hs, hqg, hc⟩ := step_ok_inv solve c qc wr dt qg c' hq hw h
        exact ⟨hq, hw, dqg, hs, by rw [hc]⟩
      · rw [step_eq_of_dim_mismatch solve c qc wr dt (Or.inr hw)] at h
        exact absurd (congrArg Prod.fst h) (by simp)
    · rw [step_eq_of_dim_mismatch solve c qc wr dt (Or.inl hq)] at h
      exact absurd (congrArg Prod.fst h) (by simp)
  · exact fun solve c qc wr dt e c' h =>
      step_error_state solve c qc wr dt e c' h
  · exact fun solve solve2 c qc wr dt hagree =>
      step_seed_agree solve solve2 c qc wr dt hagree

/-- Witness for C4: a failing solve leaves a concrete controller intact. -/
theorem C4_warm_start_state_machine_witness :
    (step wSolveFail wCtrl wQc wWr 1).2 = wCtrl :=
  C4_warm_start_state_machine.2.2.1 wSolveFail wCtrl wQc wWr 1
    CtrlError.solverFailure (step wSolveFail wCtrl wQc wWr 1).2 rfl

/-- C5: when the solver fails, the per-cycle operation surfaces the failure
to its caller — no retry, no substituted default velocity — and the cached
warm-start state is exactly the controller state from before the call. -/
theorem C5_solver_failure_propagates (solve : SolverFun α n)
    (c : AdmittanceController α n) (qc wr : List α) (dt : α)
    (hq : qc.length = n) (hw : wr.length = 6) (e : Unit)
    (hs : solve (toVec qc hq) (desiredVelocity c (toVec wr hw)) dt c.solution
            = Except.error e) :
    step solve c qc wr dt = (Except.error CtrlError.solverFailure, c) :=
  step_eq_of_solve_error solve c qc wr dt hq hw e hs

/-- Witness for C5 at a concrete always-failing solver. -/
theorem C5_solver_failure_propagates_witness :
    step wSolveFail wCtrl wQc wWr 1
      = (Except.error CtrlError.solverFailure, wCtrl) :=
  C5_solver_failure_propagates wSolveFail wCtrl wQc wWr 1 rfl rfl () rfl

/-- C6: a configuration whose length disagrees with the degree-of-freedom
count, or a wrench that is not a 6-vector, makes the per-cycle operation
fail with `dimensionMismatch`; the outcome is the same for every solver
(the solver is never consulted) and the controller — in particular the
cached warm-start state — is returned unchanged. -/
theorem C6_dimension_mismatch_rejected (solve : SolverFun α n)
    (c : AdmittanceController α n) (qc wr : List α) (dt : α)
    (h : qc.length ≠ n ∨ wr.length ≠ 6) :
    step solve c qc wr dt = (Except.error CtrlError.dimensionMismatch, c) :=
  step_eq_of_dim_mismatch solve c qc wr dt h

/-- Witness for C6 at an empty configuration for a 1-DOF controller. -/
theorem C6_dimension_mismatch_rejected_witness :
    step wSolveOk wCtrl [] wWr 1
      = (Except.error CtrlError.dimensionMismatch, wCtrl) :=
  C6_dimension_mismatch_rejected wSolveOk wCtrl [] wWr 1
    (Or.inl (by decide))

/-- C7 counterexample: the class defines only `__init__` and `__call__`;
there is no `resetWarmStart` (or any other reset) method. -/
theorem C7_no_reset_method_counterexample :
    "resetWarmStart" ∉ classMethodNames
      ∧ classMethodNames = ["__init__", "__call__"] := by
  exact ⟨by decide, rfl⟩

/-- C7 (amended): the controller exposes no reset operation; the cached
seed is cleared only by re-initialization — a newly constructed controller
has an empty cache, and its next call consults the solver exactly at seed
`none` (ColdStart). -/
theorem C7_seed_cleared_only_by_reinit :
    (∀ (loadRobot : ℕ → Robot ℝ n) (lbr_med_num : ℕ),
        (init loadRobot lbr_med_num).solution = none)
    ∧ (∀ (R : Robot α n) (g v : Fin 6 → α) (solve solve2 : SolverFun α n)
        (qc wr : List α) (dt : α),
        (∀ q vg d, solve q vg d none = solve2 q vg d none) →
        step solve (mkController R g v) qc wr dt
          = step solve2 (mkController R g v) qc wr dt) := by
  refine ⟨fun _ _ => rfl, fun R g v solve solve2 qc wr dt hagree => ?_⟩
  exact step_seed_agree solve solve2 (mkController R g v) qc wr dt hagree

/-- Witness for C7: from a fresh controller, a solver succeeding only from
a cold start is indistinguishable from one that always succeeds. -/
theorem C7_seed_cleared_only_by_reinit_witness :
    step wSolveOk wCtrl wQc wWr 1 = step wSolveColdOnly wCtrl wQc wWr 1 :=
  C7_seed_cleared_only_by_reinit.2 wRobot (fun _ => 1) (fun _ => 1)
    wSolveOk wSolveColdOnly wQc wWr 1 (fun _ _ _ => rfl)

/-- C8 counterexample: `__init__` takes only `self` and the robot model
identifier `lbr_med_num`; no gain, velocity-limit or weight argument
exists in the construction interface. -/
theorem C8_construction_interface_counterexample :
    initParamNames = ["self", "lbr_med_num"]
      ∧ "gain" ∉ initParamNames
      ∧ "velocityLimit" ∉ initParamNames
      ∧ "trackingWeight" ∉ initParamNames
      ∧ "regularizationWeight" ∉ initParamNames := by
  exact ⟨rfl, by decide, by decide, by decide, by decide⟩

/-- C8 (amended): construction accepts only the robot model identifier; the
admittance gain, the velocity limit and the cost weights (`W_track = 50`,
`W_reg = 1`) are fixed internally, identical for every instance, for the
lifetime of the instance. -/
theorem C8_constants_fixed_at_construction :
    (∀ (loadRobot : ℕ → Robot ℝ n) (lbr_med_num : ℕ),
        (init loadRobot lbr_med_num).gain = gainInit
          ∧ (init loadRobot lbr_med_num).vlim = vlimInit)
    ∧ (∀ (R : Robot α n) (qcv : Fin n → α) (vg : Fin 6 → α)
        (dq : Fin n → α),
        totalCost R qcv vg dq
          = 50 * sumsqr (fun i => jmul (R.jacobian qcv) dq i - vg i)
            + 1 * sumsqr dq) := by
  refine ⟨fun _ _ => ⟨rfl, rfl⟩, fun R qcv vg dq => ?_⟩
  unfold totalCost eeVelGoalCost minJointVelCost
  ring

/-- C9: in the 1-DOF toy scenario (constant Jacobian `[[1,0,0,0,0,0]]`,
limits `[-1,1]`, gain `[1,0,0,0,0,0]`, velocity limit `0.5`, wrench
`[2,0,0,0,0,0]`, configuration `0`, `dt = 1/10`): the clamped desired
linear velocity is `1/2`; the bound constraint is strictly inactive at the
optimum; `25/51` is the unique global minimizer of the assembled objective;
a solver returning that optimum makes the cycle return the commanded
configuration `25/510 ≈ 0.04902`. -/
theorem C9_one_dof_scenario :
    desiredVelocity toyController (toVec toyWrench rfl) = toyVg
    ∧ toyVg 0 = 1 / 2
    ∧ (toyRobot.lower 0 < 0 + 1 / 10 * (25 / 51)
        ∧ 0 + 1 / 10 * (25 / 51) < toyRobot.upper 0)
    ∧ (∀ v : Fin 1 → ℚ,
        totalCost toyRobot (fun _ => 0) toyVg (fun _ => 25 / 51)
          ≤ totalCost toyRobot (fun _ => 0) toyVg v)
    ∧ (∀ v : Fin 1 → ℚ,
        totalCost toyRobot (fun _ => 0) toyVg v
            = totalCost toyRobot (fun _ => 0) toyVg (fun _ => 25 / 51) →
        v = fun _ => 25 / 51)
    ∧ (∀ solve : SolverFun ℚ 1,
        solve (toVec [(0 : ℚ)] rfl)
            (desiredVelocity toyController (toVec toyWrench rfl)) (1 / 10)
            none = Except.ok (fun _ => 25 / 51) →
        step solve toyController [(0 : ℚ)] toyWrench (1 / 10)
          = (Except.ok qg9,
             { toyController with solution := some (fun _ => 25 / 51) }))
    ∧ qg9 0 = 25 / 510
    ∧ |qg9 0 - 4902 / 100000| < 1 / 1000000 := by
  refine ⟨toy_vg_eval, rfl, ⟨by norm_num [toyRobot], by norm_num [toyRobot]⟩,
    toy_opt_le, toy_opt_unique, ?_, by norm_num [qg9, toVec],
    by rw [abs_lt]; constructor <;> norm_num [qg9, toVec]⟩
  intro solve hs
  exact step_eq_of_solve_ok solve toyController [(0 : ℚ)] toyWrench (1 / 10)
    rfl rfl (fun _ => 25 / 51) hs

/-- Witness for C9 at a solver that returns the analytic optimum. -/
theorem C9_one_dof_scenario_witness :
    step toySolve toyController [(0 : ℚ)] toyWrench (1 / 10)
      = (Except.ok qg9,
         { toyController with solution := some (fun _ => 25 / 51) }) :=
  C9_one_dof_scenario.2.2.2.2.2.1 toySolve rfl

/-- C10: every instance, whatever its construction arguments, carries the
hardcoded gain `[0.05, 0.05, 0.05, 0.3, 0.3, 0.3]` and safety clamp
`[0.2, 0.2, 0.2, deg2rad 40, deg2rad 40, deg2rad 40]` (0.2 m/s linear,
40 deg/s angular), and the per-cycle operation never changes them. -/
theorem C10_gain_vlim_hardcoded :
    (∀ (loadRobot : ℕ → Robot ℝ n) (lbr_med_num : ℕ),
        (init loadRobot lbr_med_num).gain
            = ![0.05, 0.05, 0.05, 0.3, 0.3, 0.3]
          ∧ (init loadRobot lbr_med_num).vlim
            = ![0.2, 0.2, 0.2, 40 * Real.pi / 180, 40 * Real.pi / 180,
                40 * Real.pi / 180])
    ∧ (∀ (solve : SolverFun α n) (c : AdmittanceController α n)
        (qc wr : List α) (dt : α),
        ((step solve c qc wr dt).2).gain = c.gain
          ∧ ((step solve c qc wr dt).2).vlim = c.vlim) := by
  refine ⟨fun _ _ => ⟨rfl, rfl⟩, fun solve c qc wr dt => ?_⟩
  exact ⟨(step_snd_gain_vlim solve c qc wr dt).1,
    (step_snd_gain_vlim solve c qc wr dt).2.1⟩

end Admittance
